import Mathlib

/-!
Shallow embedding of the EbmLib repository (files `ebmlib/units.py` and
`ebmlib/rbm/rbm.py`), a small Restricted Boltzmann Machine library, together
with theorems settling the specification claims about it.

Conventions of the embedding:
* numpy float arrays are modelled as `List ℝ` (vectors) and `List (List ℝ)`
  (matrices, row major, shape `(nhid, nvis)` like the source's `W`);
  arithmetic is exact real arithmetic;
* random draws (`numpy.random.random`, `numpy.random.normal`) are passed in
  explicitly as a list argument holding one realization of the draws;
* a Python function call that raises is modelled with `Except String`;
* Python function objects stored in the registries `unittypes` /
  `derivatives` are modelled by the tag types `PyFun` / `DFun`, one
  constructor per function object appearing in the source dictionaries.
-/

namespace EbmLib

open Classical

/-- Tags for the Python function objects that are the values of the
`unittypes` registry in `units.py` (`'tanh'` maps to `numpy.tanh`, not to
the module's own `tanh`). -/
inductive PyFun where
  | pthreshF
  | sigmoidF
  | numpyTanhF
  | rectlinearF
  | linearF
deriving DecidableEq, Repr

/-- Tags for the Python function objects that are the values of the
`derivatives` registry in `units.py`. -/
inductive DFun where
  | dsigmoidF
  | dtanhF
  | dlinearF
  | drectlinearF
deriving DecidableEq, Repr

/-- `units.sigmoid`, elementwise scalar form: `1./(1.+numpy.exp(-x))`. -/
noncomputable def sigmoid (x : ℝ) : ℝ := 1 / (1 + Real.exp (-x))

/-- `units.pthresh`:
`numpy.array(sigmoid(x) >= numpy.random.random(x.shape), dtype=float32)`.
The uniform-`[0,1)` draws `numpy.random.random(x.shape)` are passed in
explicitly as the list `u` (one draw per element of `x`). -/
noncomputable def pthresh (x u : List ℝ) : List ℝ :=
  List.zipWith (fun xi ui => if sigmoid xi ≥ ui then (1 : ℝ) else 0) x u

/-- The module-level name `a` looked up by `units.linear` and
`units.rectlinear`: `units.py` defines no top-level `a`, so the lookup
finds nothing (`none` ⇒ Python raises `NameError`). -/
def moduleGlobalA : Option (List ℝ) := none

/-- The message of the `NameError` raised when the unbound name `a` is
evaluated. -/
def nameErrorA : String := "NameError: name a is not defined"

/-- `units.linear`: its body is `return a`, where `a` is unbound (the
docstring says it returns `x`).  Evaluating `a` consults the module
globals; since `units.py` defines no `a`, every call raises `NameError`. -/
def linear (x : List ℝ) : Except String (List ℝ) :=
  match moduleGlobalA with
  | none => Except.error nameErrorA
  | some a => Except.ok a

/-- `units.rectlinear`:
`numpy.maximum(0., x + numpy.random.normal(0., sigmoid(x)+0.00001, a.shape))`.
The shape argument `a.shape` evaluates the unbound name `a` before any
drawing happens, so every call raises `NameError`.  In the dead branch where
a global `a` existed, `noise` stands for the normal draws with standard
deviation `sigmoid(x) + 1e-5`. -/
def rectlinear (x noise : List ℝ) : Except String (List ℝ) :=
  match moduleGlobalA with
  | none => Except.error nameErrorA
  | some _a => Except.ok (List.zipWith (fun xi ni => max 0 (xi + ni)) x noise)

/-- The `unittypes` registry of `units.py`: activation-function lookup by
name.  Values are the tags of the stored function objects. -/
def unittypes : List (String × PyFun) :=
  [("pthresh", PyFun.pthreshF),
   ("sigmoid", PyFun.sigmoidF),
   ("tanh", PyFun.numpyTanhF),
   ("rectlinear", PyFun.rectlinearF),
   ("linear", PyFun.linearF)]

/-- The `derivatives` registry of `units.py`: derivative lookup by name.
Note it has entries for `sigmoid`, `tanh`, `rectlinear`, `linear` only —
no `pthresh` entry. -/
def derivatives : List (String × DFun) :=
  [("sigmoid", DFun.dsigmoidF),
   ("tanh", DFun.dtanhF),
   ("rectlinear", DFun.drectlinearF),
   ("linear", DFun.dlinearF)]

/-- The names bound at top level of module `units.py` (its `import numpy`
binding included): the names available to a `from ..units import ...`. -/
def unitsDefinedNames : List String :=
  ["numpy", "pthresh", "sigmoid", "tanh", "rectlinear", "linear",
   "dsigmoid", "dtanh", "dlinear", "drectlinear", "unittypes", "derivatives"]

/-- The names `rbm/rbm.py` line 31 imports from `units.py`:
`from .. units import unittypes, sigmoid, rthresh, pthresh`. -/
def rbmUnitsImports : List String :=
  ["unittypes", "sigmoid", "rthresh", "pthresh"]

/-- Default of the `vtype` parameter of `Rbm.__init__`. -/
def defaultVtype : String := "pthresh"

/-- Default of the `htype` parameter of `Rbm.__init__`. -/
def defaultHtype : String := "sigmoid"

/-- Dot product of two vectors, as computed by `numpy.dot` on 1-d arrays
(with equal lengths; on mismatched lengths the source's behavior is
undefined and the model truncates). -/
noncomputable def dot (xs ys : List ℝ) : ℝ :=
  (List.zipWith (fun a b => a * b) xs ys).sum

/-- `numpy.dot(W, v)` for a matrix `W` (list of rows) and a vector `v`. -/
noncomputable def matVec (W : List (List ℝ)) (v : List ℝ) : List ℝ :=
  W.map (fun row => dot row v)

/-- Elementwise vector addition (`numpy` `+` on equal-shape 1-d arrays). -/
noncomputable def vecAdd (xs ys : List ℝ) : List ℝ :=
  List.zipWith (fun a b => a + b) xs ys

/-- `numpy.outer(h, v)`: the matrix with entries `h_j * v_i`. -/
noncomputable def outer (h v : List ℝ) : List (List ℝ) :=
  h.map (fun hj => v.map (fun vi => hj * vi))

/-- The state of an `Rbm` object (`rbm/rbm.py`): the fields `__init__`
and `__setstate__` assign. -/
structure Rbm where
  nvis : ℕ
  nhid : ℕ
  W : List (List ℝ)
  vb : List ℝ
  hb : List ℝ
  dW : List (List ℝ)
  dvb : List ℝ
  dhb : List ℝ
  vtype : String
  htype : String
  vact : PyFun
  hact : PyFun

/-- Shape invariants of `Rbm` (spec §3): `W` is `(nhid, nvis)`,
`vb` has length `nvis`, `hb` has length `nhid`. -/
def Rbm.wellFormed (m : Rbm) : Prop :=
  m.W.length = m.nhid ∧ (∀ row ∈ m.W, row.length = m.nvis) ∧
    m.vb.length = m.nvis ∧ m.hb.length = m.nhid

/-- `Rbm.__init__(nvis, nhid, vtype, htype)`.  The random weight
initialization `np.random.uniform(-0.2, 0.2, (nhid, nvis))` is passed in
explicitly as `W0`.  The source resolves `unittypes[htype]` (line 60)
before `unittypes[vtype]` (line 61); an unknown name raises `KeyError`,
so construction yields no object. -/
noncomputable def Rbm.init (nvis nhid : ℕ) (W0 : List (List ℝ))
    (vtype htype : String) : Except String Rbm :=
  match List.lookup htype unittypes with
  | none => Except.error ("KeyError: " ++ htype)
  | some ha =>
    match List.lookup vtype unittypes with
    | none => Except.error ("KeyError: " ++ vtype)
    | some va =>
      Except.ok ⟨nvis, nhid, W0,
        List.replicate nvis 0, List.replicate nhid 0,
        List.replicate nhid (List.replicate nvis 0),
        List.replicate nvis 0, List.replicate nhid 0,
        vtype, htype, va, ha⟩

/-- `Rbm.ff(v)`: `sigmoid(np.dot(self.W, v) + self.hb)`. -/
noncomputable def Rbm.ff (m : Rbm) (v : List ℝ) : List ℝ :=
  (vecAdd (matVec m.W v) m.hb).map sigmoid

/-- `Rbm.fb(h)`: `sigmoid(np.dot(self.W.T, h) + self.vb)`. -/
noncomputable def Rbm.fb (m : Rbm) (h : List ℝ) : List ℝ :=
  (vecAdd (matVec m.W.transpose h) m.vb).map sigmoid

/-- `Rbm.free_energy(v)`:
`-np.sum(v * self.vb) + -np.sum(np.log(1 + np.exp(np.dot(self.W, v) + self.hb)))`,
the naive `log(1+exp(x))` written in the source (exact-real semantics; the
float64 overflow it suffers from is discussed at the C4 theorems). -/
noncomputable def Rbm.free_energy (m : Rbm) (v : List ℝ) : ℝ :=
  -(List.zipWith (fun a b => a * b) v m.vb).sum +
    -(((vecAdd (matVec m.W v) m.hb).map
        (fun x => Real.log (1 + Real.exp x))).sum)

/-- The pre-activation `np.dot(self.W, v) + self.hb` that
`Rbm.free_energy` exponentiates. -/
noncomputable def Rbm.preAct (m : Rbm) (v : List ℝ) : List ℝ :=
  vecAdd (matVec m.W v) m.hb

/-- `Rbm.energy(v, h)`:
`-np.sum(v*self.vb) + -np.sum(h*self.hb) + -np.sum(self.W * np.outer(h, v))`. -/
noncomputable def Rbm.energy (m : Rbm) (v h : List ℝ) : ℝ :=
  -(List.zipWith (fun a b => a * b) v m.vb).sum +
    -(List.zipWith (fun a b => a * b) h m.hb).sum +
      -((List.zipWith (fun row orow => (List.zipWith (fun a b => a * b) row orow).sum)
          m.W (outer h v)).sum)

/-- The dictionary `Rbm.__getstate__` returns (arrays `.copy()`-ed; in
this value-semantics embedding a copy is the value itself). -/
structure RbmState where
  nvis : ℕ
  nhid : ℕ
  vtype : String
  htype : String
  W : List (List ℝ)
  vb : List ℝ
  hb : List ℝ
  dW : List (List ℝ)
  dhb : List ℝ
  dvb : List ℝ

/-- `Rbm.__getstate__`. -/
def Rbm.getstate (m : Rbm) : RbmState :=
  ⟨m.nvis, m.nhid, m.vtype, m.htype, m.W, m.vb, m.hb, m.dW, m.dhb, m.dvb⟩

/-- `Rbm.__setstate__(d)`: copies the fields back and re-resolves
`self.vact = unittypes[self.vtype]` (line 135) then
`self.hact = unittypes[self.htype]` (line 136); an unknown name raises
`KeyError`. -/
noncomputable def Rbm.setstate (d : RbmState) : Except String Rbm :=
  match List.lookup d.vtype unittypes with
  | none => Except.error ("KeyError: " ++ d.vtype)
  | some va =>
    match List.lookup d.htype unittypes with
    | none => Except.error ("KeyError: " ++ d.htype)
    | some ha =>
      Except.ok ⟨d.nvis, d.nhid, d.W, d.vb, d.hb, d.dW, d.dvb, d.dhb,
        d.vtype, d.htype, va, ha⟩

/-- External mutation of the model's `W` (the training interface writes
`W` directly, spec §6); used to state the deep-copy property of
snapshots. -/
def Rbm.mutateW (m : Rbm) (Wnew : List (List ℝ)) : Rbm :=
  { m with W := Wnew }

/-- Spec-side rendering of claim C2's formula, for comparison with
`Rbm.ff`: the length-`nhid` vector whose `j`-th entry is
`sigmoid(Σ_i W_{j,i}·v_i + hb_j)`. -/
noncomputable def ffSpec (m : Rbm) (v : List ℝ) : List ℝ :=
  (List.range m.nhid).map (fun j =>
    sigmoid ((∑ i ∈ Finset.range m.nvis, (m.W.getD j []).getD i 0 * v.getD i 0)
      + m.hb.getD j 0))

/-- Spec-side rendering of claim C7's words, for comparison with `pthresh`:
elementwise `1.0` if the uniform draw is strictly below `sigmoid(x)`, else
`0.0`. -/
noncomputable def pthreshClaim (x u : List ℝ) : List ℝ :=
  List.zipWith (fun xi ui => if ui < sigmoid xi then (1 : ℝ) else 0) x u

/-! ### Helper lemmas -/

/-- The sum of a `zipWith` of two equally long lists, written as an indexed
`Finset.range` sum. -/
theorem sum_zipWith_eq_range {α β : Type} (f : α → β → ℝ) (dx : α) (dy : β) :
    ∀ (n : ℕ) (xs : List α) (ys : List β), xs.length = n → ys.length = n →
      (List.zipWith f xs ys).sum =
        ∑ i ∈ Finset.range n, f (xs.getD i dx) (ys.getD i dy) := by
  intro n
  induction n with
  | zero =>
    intro xs ys hx hy
    rw [List.length_eq_zero] at hx hy
    subst hx; subst hy
    simp
  | succ n ih =>
    intro xs ys hx hy
    cases xs with
    | nil => simp at hx
    | cons x xs =>
      cases ys with
      | nil => simp at hy
      | cons y ys =>
        simp only [List.zipWith_cons_cons, List.sum_cons]
        rw [ih xs ys (Nat.succ_injective hx) (Nat.succ_injective hy)]
        rw [Finset.sum_range_succ']
        simp only [List.getD_cons_succ, List.getD_cons_zero]
        exact add_comm _ _

/-! ### Claim theorems -/

/-- C1: `rbm/rbm.py` line 31 imports `rthresh` from `units.py`, and
`hid_sample` / `vis_sample` call `rthresh` — but `units.py` defines no
top-level name `rthresh` (the probabilistic-thresholding function it does
define is `pthresh`).  The import therefore raises `ImportError` and the
samplers can never run, let alone apply `pthresh`. -/
theorem rthresh_imported_but_undefined :
    "rthresh" ∈ rbmUnitsImports ∧ "rthresh" ∉ unitsDefinedNames ∧
      "pthresh" ∈ unitsDefinedNames := by
  decide

/-- C4: evaluating the source's `free_energy` at the failing input in exact
arithmetic.  With `W = [[50]]`, `vb = [50]`, `hb = [50]`, `v = [50]` (all
entries of magnitude 50) the hidden pre-activation is `2550`, far beyond
`709.78…`, the largest argument at which float64 `numpy.exp` is finite; the
naive `np.log(1 + np.exp(...))` the source uses (not a stable softplus)
hence yields `inf` there and the real code returns `-inf`, not a finite
value. -/
theorem free_energy_naive_at_overflow_input :
    (Rbm.mk 1 1 [[50]] [50] [50] [[0]] [0] [0] "pthresh" "sigmoid"
        PyFun.pthreshF PyFun.sigmoidF).preAct [(50 : ℝ)] = [2550] ∧
      (Rbm.mk 1 1 [[50]] [50] [50] [[0]] [0] [0] "pthresh" "sigmoid"
        PyFun.pthreshF PyFun.sigmoidF).free_energy [(50 : ℝ)] =
        -2500 + -(Real.log (1 + Real.exp 2550)) ∧
      (709 : ℝ) < 2550 := by
  refine ⟨?_, ?_, by norm_num⟩
  · simp [Rbm.preAct, vecAdd, matVec, dot]
    norm_num
  · simp [Rbm.free_energy, vecAdd, matVec, dot]
    norm_num

/-- C5: the registry activation `linear` (whose docstring says it returns
`x`) does not return its input: its body is `return a` with `a` unbound, so
every call raises `NameError`. -/
theorem linear_raises_name_error :
    List.lookup ("linear") unittypes = some PyFun.linearF ∧
      linear [(1 : ℝ)] = Except.error nameErrorA := by
  exact ⟨by decide, rfl⟩

/-- C6: the registry activation `rectlinear` never computes
`max(0, x + noise)`: the shape argument `a.shape` in its body evaluates the
unbound name `a`, so every call raises `NameError` before any noise is
drawn. -/
theorem rectlinear_raises_name_error :
    List.lookup ("rectlinear") unittypes = some PyFun.rectlinearF ∧
      rectlinear [(1 : ℝ)] [(0 : ℝ)] = Except.error nameErrorA := by
  exact ⟨by decide, rfl⟩

/-- C2: for a well-formed model and a visible vector of length `nvis`,
`ff` returns `sigmoid(W·v + hb)` — entrywise
`sigmoid(Σ_i W_{j,i}·v_i + hb_j)` — a vector of length `nhid`, and the
result is unchanged under any reconfiguration of the hidden activation
type (`htype`/`hact`): `ff` always uses `sigmoid`. -/
theorem ff_sigmoid_of_affine (m : Rbm) (v : List ℝ)
    (hwf : m.wellFormed) (hv : v.length = m.nvis) :
    m.ff v = ffSpec m v ∧ (m.ff v).length = m.nhid ∧
      ∀ (t : String) (a : PyFun),
        (Rbm.mk m.nvis m.nhid m.W m.vb m.hb m.dW m.dvb m.dhb m.vtype t
          m.vact a).ff v = m.ff v := by
  obtain ⟨hW, hrows, _hvb, hhb⟩ := hwf
  have hlen : (m.ff v).length = m.nhid := by
    simp [Rbm.ff, vecAdd, matVec, hW, hhb]
  refine ⟨?_, hlen, fun t a => rfl⟩
  apply List.ext_getElem
  · rw [hlen]
    simp [ffSpec]
  · intro j h1 h2
    have hj : j < m.nhid := hlen ▸ h1
    have hjW : j < m.W.length := by rw [hW]; exact hj
    have hjhb : j < m.hb.length := by rw [hhb]; exact hj
    have hrow : (m.W[j]).length = m.nvis := hrows _ (List.getElem_mem hjW)
    have hdot : dot (m.W[j]) v =
        ∑ i ∈ Finset.range m.nvis, (m.W.getD j []).getD i 0 * v.getD i 0 := by
      rw [List.getD_eq_getElem m.W [] hjW]
      rw [dot, sum_zipWith_eq_range (fun a b => a * b) 0 0 m.nvis (m.W[j]) v hrow hv]
    have hhbj : m.hb.getD j 0 = m.hb[j] := List.getD_eq_getElem m.hb 0 hjhb
    simp only [Rbm.ff, ffSpec, vecAdd, matVec, List.getElem_map,
      List.getElem_zipWith, List.getElem_range, hdot, hhbj]

/-- C2 witness: a concrete well-formed model (`nvis = nhid = 1`, zero
weights and biases) at which the hypotheses of `ff_sigmoid_of_affine` hold
and its conclusion evaluates. -/
theorem ff_sigmoid_of_affine_witness :
    (Rbm.mk 1 1 [[(0 : ℝ)]] [0] [0] [[0]] [0] [0] "pthresh" "sigmoid"
        PyFun.pthreshF PyFun.sigmoidF).wellFormed ∧
      ((Rbm.mk 1 1 [[(0 : ℝ)]] [0] [0] [[0]] [0] [0] "pthresh" "sigmoid"
        PyFun.pthreshF PyFun.sigmoidF).ff [(0 : ℝ)]).length = 1 := by
  have hwf : (Rbm.mk 1 1 [[(0 : ℝ)]] [0] [0] [[0]] [0] [0] "pthresh" "sigmoid"
      PyFun.pthreshF PyFun.sigmoidF).wellFormed := by
    refine ⟨rfl, ?_, rfl, rfl⟩
    intro row hr
    simp only [List.mem_singleton] at hr
    subst hr
    rfl
  exact ⟨hwf, (ff_sigmoid_of_affine _ [0] hwf rfl).2.1⟩

/-- C3: for a well-formed model and vectors of matching lengths, the joint
energy equals
`-Σ_i v_i·vb_i - Σ_j h_j·hb_j - Σ_j Σ_i W_{j,i}·h_j·v_i`. -/
theorem energy_is_neg_bias_bilinear (m : Rbm) (v h : List ℝ)
    (hwf : m.wellFormed) (hv : v.length = m.nvis) (hh : h.length = m.nhid) :
    m.energy v h =
      -(∑ i ∈ Finset.range m.nvis, v.getD i 0 * m.vb.getD i 0)
        - ∑ j ∈ Finset.range m.nhid, h.getD j 0 * m.hb.getD j 0
        - ∑ j ∈ Finset.range m.nhid, ∑ i ∈ Finset.range m.nvis,
            (m.W.getD j []).getD i 0 * h.getD j 0 * v.getD i 0 := by
  obtain ⟨hW, hrows, hvb, hhb⟩ := hwf
  have h1 : (List.zipWith (fun a b => a * b) v m.vb).sum =
      ∑ i ∈ Finset.range m.nvis, v.getD i 0 * m.vb.getD i 0 :=
    sum_zipWith_eq_range _ 0 0 m.nvis v m.vb hv hvb
  have h2 : (List.zipWith (fun a b => a * b) h m.hb).sum =
      ∑ j ∈ Finset.range m.nhid, h.getD j 0 * m.hb.getD j 0 :=
    sum_zipWith_eq_range _ 0 0 m.nhid h m.hb hh hhb
  have h3 : (List.zipWith
      (fun row orow => (List.zipWith (fun a b => a * b) row orow).sum)
      m.W (outer h v)).sum =
      ∑ j ∈ Finset.range m.nhid, ∑ i ∈ Finset.range m.nvis,
        (m.W.getD j []).getD i 0 * h.getD j 0 * v.getD i 0 := by
    rw [outer, List.zipWith_map_right]
    rw [sum_zipWith_eq_range _ ([] : List ℝ) (0 : ℝ) m.nhid m.W h hW hh]
    refine Finset.sum_congr rfl ?_
    intro j hjmem
    have hj : j < m.nhid := Finset.mem_range.mp hjmem
    have hjW : j < m.W.length := by rw [hW]; exact hj
    have hrow : (m.W.getD j []).length = m.nvis := by
      rw [List.getD_eq_getElem m.W [] hjW]
      exact hrows _ (List.getElem_mem hjW)
    have hmap : (List.map (fun vi => h.getD j 0 * vi) v).length = m.nvis := by
      simp [hv]
    rw [sum_zipWith_eq_range (fun a b => a * b) (0 : ℝ) (0 : ℝ) m.nvis _ _ hrow hmap]
    refine Finset.sum_congr rfl ?_
    intro i himem
    have hi : i < m.nvis := Finset.mem_range.mp himem
    have hiv : i < v.length := by rw [hv]; exact hi
    have hmapi : (List.map (fun vi => h.getD j 0 * vi) v).getD i 0 =
        h.getD j 0 * v.getD i 0 := by
      rw [List.getD_eq_getElem _ 0 (by simpa [hv] using hi), List.getElem_map,
        List.getD_eq_getElem v 0 hiv]
    rw [hmapi]
    ring
  rw [Rbm.energy, h1, h2, h3]
  ring

/-- C3 witness: the claim's concrete fixed-point check — `nvis = 2`,
`nhid = 1`, `W = [[1,-1]]`, `vb = [0,0]`, `hb = [0]`, `v = [1,1]`,
`h = [1]` gives energy `0`. -/
theorem energy_is_neg_bias_bilinear_witness :
    (Rbm.mk 2 1 [[(1 : ℝ), -1]] [0, 0] [0] [[0, 0]] [0, 0] [0] "pthresh"
        "sigmoid" PyFun.pthreshF PyFun.sigmoidF).energy [1, 1] [1] = 0 := by
  have hwf : (Rbm.mk 2 1 [[(1 : ℝ), -1]] [0, 0] [0] [[0, 0]] [0, 0] [0]
      "pthresh" "sigmoid" PyFun.pthreshF PyFun.sigmoidF).wellFormed := by
    refine ⟨rfl, ?_, rfl, rfl⟩
    intro row hr
    simp only [List.mem_singleton] at hr
    subst hr
    rfl
  rw [energy_is_neg_bias_bilinear _ [1, 1] [1] hwf rfl rfl]
  simp [Finset.sum_range_succ, List.getD_cons_zero, List.getD_cons_succ]

/-- C7 counterexample: the source's `pthresh` compares with
`sigmoid(x) >= u`, not `u < sigmoid(x)`.  At `x = 0`, `u = 1/2` we have
`sigmoid(0) = 1/2`, so the code outputs `1.0` while the claim's strict
comparison outputs `0.0`. -/
theorem pthresh_strict_claim_counterexample :
    sigmoid 0 = 1 / 2 ∧
      pthresh [(0 : ℝ)] [1 / 2] = [1] ∧
      pthreshClaim [(0 : ℝ)] [1 / 2] = [0] ∧
      pthresh [(0 : ℝ)] [1 / 2] ≠ pthreshClaim [(0 : ℝ)] [1 / 2] := by
  have hs : sigmoid 0 = 1 / 2 := by
    rw [sigmoid]
    norm_num [Real.exp_zero]
  have ha : pthresh [(0 : ℝ)] [1 / 2] = [1] := by
    simp [pthresh, hs]
  have hb : pthreshClaim [(0 : ℝ)] [1 / 2] = [0] := by
    simp [pthreshClaim, hs]
  refine ⟨hs, ha, hb, ?_⟩
  rw [ha, hb]
  simp

/-- C7 (amended): for inputs `x` and per-element draws `u` from `[0,1)` of
the same length, `pthresh` returns a vector of the same length whose `i`-th
entry is `1.0` if `u_i ≤ sigmoid(x_i)` (the source's `sigmoid(x) >= u`),
else `0.0`. -/
theorem pthresh_char (x u : List ℝ) (hlen : u.length = x.length)
    (hu : ∀ ui ∈ u, 0 ≤ ui ∧ ui < 1) :
    (pthresh x u).length = x.length ∧
      ∀ i, i < x.length →
        (pthresh x u).getD i 0 =
          if u.getD i 0 ≤ sigmoid (x.getD i 0) then 1 else 0 := by
  constructor
  · simp [pthresh, List.length_zipWith, hlen]
  · intro i hi
    have hiu : i < u.length := by rw [hlen]; exact hi
    have hiz : i < (List.zipWith
        (fun xi ui => if sigmoid xi ≥ ui then (1 : ℝ) else 0) x u).length := by
      simp only [List.length_zipWith, hlen, min_self]
      exact hi
    rw [pthresh, List.getD_eq_getElem _ 0 hiz, List.getElem_zipWith,
      List.getD_eq_getElem x 0 hi, List.getD_eq_getElem u 0 hiu]

/-- C7 witness: a concrete instance of `pthresh_char` at `x = [1]`,
`u = [1/2]`. -/
theorem pthresh_char_witness :
    (pthresh [(1 : ℝ)] [1 / 2]).length = 1 :=
  (pthresh_char [(1 : ℝ)] [1 / 2] rfl (by
    intro ui hui
    rw [List.mem_singleton] at hui
    subst hui
    norm_num)).1

/-- C8: restoring from a snapshot (`__setstate__` of `__getstate__`)
succeeds for any model whose unit-type names resolve in the registry, and
the restored model produces identical `ff`, `fb` and `energy` outputs on
every input; moreover the snapshot of a model is built from the values `W`
held at snapshot time, so overwriting `W` afterwards (`mutateW`) leaves a
previously taken snapshot unchanged. -/
theorem snapshot_restore_roundtrip (m : Rbm) (fv fh : PyFun)
    (hv : List.lookup m.vtype unittypes = some fv)
    (hh : List.lookup m.htype unittypes = some fh) :
    ∃ m', Rbm.setstate m.getstate = Except.ok m' ∧
      (∀ v, m'.ff v = m.ff v) ∧
      (∀ h, m'.fb h = m.fb h) ∧
      (∀ v h, m'.energy v h = m.energy v h) ∧
      ∀ Wnew, (Rbm.mutateW m Wnew).getstate.W = Wnew ∧ m.getstate.W = m.W := by
  refine ⟨⟨m.nvis, m.nhid, m.W, m.vb, m.hb, m.dW, m.dvb, m.dhb, m.vtype,
    m.htype, fv, fh⟩, ?_, fun v => rfl, fun h => rfl, fun v h => rfl,
    fun Wnew => ⟨rfl, rfl⟩⟩
  rw [Rbm.setstate, Rbm.getstate]
  rw [hv, hh]

/-- C8 witness: the round trip at a concrete model with nonzero `W`, `vb`,
`hb`. -/
theorem snapshot_restore_roundtrip_witness :
    ∃ m', Rbm.setstate (Rbm.mk 1 1 [[(3 : ℝ)]] [4] [5] [[0]] [0] [0]
        "pthresh" "sigmoid" PyFun.pthreshF PyFun.sigmoidF).getstate =
        Except.ok m' := by
  obtain ⟨m', hm', -, -, -, -⟩ := snapshot_restore_roundtrip
    (Rbm.mk 1 1 [[(3 : ℝ)]] [4] [5] [[0]] [0] [0] "pthresh" "sigmoid"
      PyFun.pthreshF PyFun.sigmoidF) PyFun.pthreshF PyFun.sigmoidF
    (by decide) (by decide)
  exact ⟨m', hm'⟩

/-- C9: constructing an `Rbm` with a `vtype` or `htype` that is not a key
of the `unittypes` registry fails with the registry's `KeyError`, so the
construction yields no model object. -/
theorem init_unknown_type_errors (nvis nhid : ℕ) (W0 : List (List ℝ))
    (vtype htype : String)
    (hbad : List.lookup vtype unittypes = none ∨
      List.lookup htype unittypes = none) :
    ∃ e, Rbm.init nvis nhid W0 vtype htype = Except.error e := by
  rcases hbad with hv | hh
  · cases hht : List.lookup htype unittypes with
    | none =>
      refine ⟨"KeyError: " ++ htype, ?_⟩
      rw [Rbm.init, hht]
    | some ha =>
      refine ⟨"KeyError: " ++ vtype, ?_⟩
      rw [Rbm.init, hht, hv]
  · refine ⟨"KeyError: " ++ htype, ?_⟩
    rw [Rbm.init, hh]

/-- C9 witness: `vtype = "not_a_real_type"` is not a registry key and
construction errors there. -/
theorem init_unknown_type_errors_witness :
    List.lookup ("not_a_real_type") unittypes = none ∧
      ∃ e, Rbm.init 2 1 [[0, 0]] ("not_a_real_type") ("sigmoid") =
        Except.error e :=
  ⟨by decide, init_unknown_type_errors 2 1 [[0, 0]] ("not_a_real_type")
    ("sigmoid") (Or.inl (by decide))⟩

/-- C10: `'pthresh'` is the default visible type of a newly constructed
`Rbm` and a key of the `unittypes` activation registry, yet the
`derivatives` registry has no `'pthresh'` entry, so
`derivatives['pthresh']` raises `KeyError`. -/
theorem derivatives_missing_pthresh :
    defaultVtype = "pthresh" ∧
      List.lookup defaultVtype unittypes = some PyFun.pthreshF ∧
      List.lookup defaultVtype derivatives = none := by
  decide

end EbmLib
